import Mathlib

/-!
Shallow embedding of the virtual-time timer scheduler (`FakeTimers` class).

Modelling conventions:
* Timer / tick ids: the source mints ids from a numeric `_uuidCounter` and
  stores them as `String(uuid)`; `String` applied to integers is injective, so
  ids are modelled as `Int`.
* The timer map (`Map<string, Timer>`) is modelled as an insertion-ordered
  association list; `mapSet` keeps an existing key at its position (JS `Map`
  semantics) and `mapDelete` removes the entry with the key.
* Callbacks are opaque in the source.  They are defunctionalised into an
  inductive `Cb` language whose interpreter `runCb` may log an observation,
  read the virtual clock, schedule further fake work (reentrancy), or throw.
  Invoking a callback is observable through the `log` field, which models the
  externally visible effect of the opaque callbacks and is not a field of the
  source class.
* Exceptions: the source mutates `this` in place, so state mutated before a
  `throw` survives the exception.  Every operation that can throw therefore
  returns `State × Option Err`: the state after the call together with the
  raised error, if any.  The source's error messages
  ("Ran {n} {kind}, and there are still more! ...") are modelled by the
  structured constructor `Err.recursionLimit kind n`, which records the drain
  kind named by the message.
* The host's real scheduling primitives (`this._timerAPIs.nextTick(...)`,
  `this._timerAPIs.setImmediate(...)` backup calls) are external I/O with no
  effect on the scheduler's own state and are not modelled.
* `console.warn` in `_checkFakeTimers` is I/O only; `checkFakeTimers` returns
  whether the warning fires and is ignored by the drains, as in the source.
* Host global primitives are opaque function values; they are modelled as
  `Option Nat` labels (`none` = `undefined`, `some l` = a function value with
  identity `l`).  `typeof g === 'function'` becomes `Option.isSome`.
-/

namespace Jest

/-- `const MS_IN_A_YEAR = 31536000000`. -/
def MS_IN_A_YEAR : Int := 31536000000

/-- JavaScript numbers as far as the delay coercion needs them: `nan` covers
`NaN` (the result of `Number` on non-numeric input), and `int n` covers a
finite value whose truncation toward zero is `n` (the `| 0` coercion first
truncates, so only the truncation matters). -/
inductive JSNum where
  | nan
  | int (n : Int)
deriving DecidableEq, Repr

/-- `Number(delay) | 0`: ToInt32 of the (possibly absent) delay argument.
`Number(undefined) = NaN` and `NaN | 0 = 0`; a finite value is truncated and
wrapped into the signed 32-bit range. -/
def toInt32 : Option JSNum → Int
  | none => 0
  | some JSNum.nan => 0
  | some (JSNum.int n) => (n + 2 ^ 31) % 2 ^ 32 - 2 ^ 31

/-- The `type` field of a `Timer` record: the source stores the strings
`'timeout'` and `'interval'`; `other` abstracts any different string (the
`default:` branch of `_runTimerHandle`). -/
inductive TimerType where
  | timeout
  | interval
  | other (tag : Nat)
deriving DecidableEq, Repr

/-- The defunctionalised callback language.  Each constructor is interpreted
by `runCb`:
* `note n` — log the constant `n` (a pure observation);
* `noteNow` — log the current virtual clock;
* `throwE n` — throw an exception (observable as `Err.userErr n`);
* `tickRespawn` — log `1`, then register another `tickRespawn` tick via the
  fake `nextTick` (the self-rescheduling callback of the recursion-guard
  scenario);
* `schedTimeout d c` — call the fake `setTimeout` with delay `d` and
  callback `c`, discarding the returned ref;
* `seq a b` — run `a` then `b`, propagating an exception from `a`. -/
inductive Cb where
  | note (n : Int)
  | noteNow
  | throwE (n : Nat)
  | tickRespawn
  | schedTimeout (d : Option JSNum) (c : Cb)
  | seq (a b : Cb)
deriving DecidableEq, Repr

/-- A `Tick` record: unique id and bound callback. -/
structure Tick where
  uuid : Int
  callback : Cb
deriving DecidableEq, Repr

/-- A `Timer` record: kind, bound callback, expiry in virtual ms, and the
interval length for intervals. -/
structure Timer where
  type : TimerType
  callback : Cb
  expiry : Int
  interval : Option Int
deriving DecidableEq, Repr

/-- The host's table of scheduling primitives (the relevant slice of the
globals object, `process.nextTick` included).  Each slot holds an opaque
function label or `undefined`. -/
structure TimerAPI where
  cancelAnimationFrame : Option Nat
  clearImmediate : Option Nat
  clearInterval : Option Nat
  clearTimeout : Option Nat
  nextTick : Option Nat
  requestAnimationFrame : Option Nat
  setImmediate : Option Nat
  setInterval : Option Nat
  setTimeout : Option Nat
deriving DecidableEq, Repr

/-- The ref↔id bridge injected at construction.  `refToId` returns
`number | void`; only integral results can match a stored key, so it is
modelled as `Option Int`. -/
structure TimerConfig (Ref : Type) where
  idToRef : Int → Ref
  refToId : Ref → Option Int

/-- The mutable state of the `FakeTimers` object. -/
structure FakeTimers where
  cancelledTicks : List Int
  disposed : Bool
  globalAPIs : TimerAPI
  fakeTimerAPIs : Option TimerAPI
  immediates : List Tick
  maxLoops : Nat
  now : Int
  ticks : List Tick
  timerAPIs : TimerAPI
  timers : List (Int × Timer)
  uuidCounter : Int
  log : List Int
deriving DecidableEq, Repr

/-- Kind of drain named by a recursion-limit error message. -/
inductive DrainKind where
  | ticks
  | immediates
  | timers
deriving DecidableEq, Repr

/-- Errors raised by the scheduler:
* `recursionLimit kind n` — the "Ran n (kind), and there are still more!"
  error thrown when a drain loop reaches `maxLoops = n`;
* `unexpectedTimerType t` — the "Unexpected timer type" error of
  `_runTimerHandle`;
* `userErr n` — an exception thrown by a user callback (`Cb.throwE n`). -/
inductive Err where
  | recursionLimit (kind : DrainKind) (count : Nat)
  | unexpectedTimerType (t : TimerType)
  | userErr (n : Nat)
deriving DecidableEq, Repr

/-- Lookup in the id-keyed timer map (`Map.get`). -/
def mapGet : List (Int × Timer) → Int → Option Timer
  | [], _ => none
  | (k0, v0) :: rest, k => if k0 = k then some v0 else mapGet rest k

/-- `Map.set`: replace in place when the key is present (JS `Map` keeps the
original insertion position), append otherwise. -/
def mapSet : List (Int × Timer) → Int → Timer → List (Int × Timer)
  | [], k, v => [(k, v)]
  | (k0, v0) :: rest, k, v =>
    if k0 = k then (k, v) :: rest else (k0, v0) :: mapSet rest k v

/-- `Map.delete`: remove the entry with the key. -/
def mapDelete : List (Int × Timer) → Int → List (Int × Timer)
  | [], _ => []
  | (k0, v0) :: rest, k =>
    if k0 = k then mapDelete rest k else (k0, v0) :: mapDelete rest k

variable {Ref : Type}

/-- `_fakeNextTick`: if disposed, do nothing; otherwise mint an id, push the
tick, and additionally schedule a real-nextTick backup (external I/O, not
modelled; it consults `cancelledTicks` at fire time). -/
def fakeNextTick (callback : Cb) (s : FakeTimers) : FakeTimers :=
  if s.disposed then s
  else
    { s with
      ticks := s.ticks ++ [{ uuid := s.uuidCounter, callback := callback }],
      uuidCounter := s.uuidCounter + 1 }

/-- `_fakeSetTimeout`: if disposed, return null; otherwise coerce the delay
with `Number(delay) | 0`, mint an id, store a `timeout` timer expiring at
`now + delay`, and return `idToRef(id)`. -/
def fakeSetTimeout (cfg : TimerConfig Ref) (callback : Cb) (delay : Option JSNum)
    (s : FakeTimers) : FakeTimers × Option Ref :=
  if s.disposed then (s, none)
  else
    let d := toInt32 delay
    let uuid := s.uuidCounter
    ({ s with
        uuidCounter := uuid + 1,
        timers := mapSet s.timers uuid
          { type := TimerType.timeout, callback := callback,
            expiry := s.now + d, interval := none } },
      some (cfg.idToRef uuid))

/-- `_fakeSetInterval`: if disposed, return null; a `null`/`undefined` delay
defaults to 0 (note: unlike `_fakeSetTimeout`, no `| 0` coercion is applied);
store an `interval` timer expiring at `now + delay` and return `idToRef(id)`. -/
def fakeSetInterval (cfg : TimerConfig Ref) (callback : Cb) (intervalDelay : Option Int)
    (s : FakeTimers) : FakeTimers × Option Ref :=
  if s.disposed then (s, none)
  else
    let d := intervalDelay.getD 0
    let uuid := s.uuidCounter
    ({ s with
        uuidCounter := uuid + 1,
        timers := mapSet s.timers uuid
          { type := TimerType.interval, callback := callback,
            expiry := s.now + d, interval := some d } },
      some (cfg.idToRef uuid))

/-- `_fakeSetImmediate`: if disposed, return null; otherwise mint an id, push
the immediate, schedule a real-setImmediate backup (external I/O, not
modelled), and return the id. -/
def fakeSetImmediate (callback : Cb) (s : FakeTimers) : FakeTimers × Option Int :=
  if s.disposed then (s, none)
  else
    let uuid := s.uuidCounter
    ({ s with
        immediates := s.immediates ++ [{ uuid := uuid, callback := callback }],
        uuidCounter := uuid + 1 },
      some uuid)

/-- `_fakeClearTimer`: translate the ref via `refToId`; `if (uuid)` — a falsy
id (absent, or the number 0) is ignored; otherwise delete the map entry. -/
def fakeClearTimer (cfg : TimerConfig Ref) (timerRef : Ref) (s : FakeTimers) : FakeTimers :=
  match cfg.refToId timerRef with
  | none => s
  | some uuid =>
    if uuid = 0 then s else { s with timers := mapDelete s.timers uuid }

/-- `_fakeClearImmediate`: filter the immediate with the given id out of the
sequence. -/
def fakeClearImmediate (uuid : Int) (s : FakeTimers) : FakeTimers :=
  { s with immediates := s.immediates.filter (fun im => im.uuid ≠ uuid) }

/-- The interpreter of the defunctionalised callbacks (see `Cb`). -/
def runCb (cfg : TimerConfig Ref) : Cb → FakeTimers → FakeTimers × Option Err
  | Cb.note n, s => ({ s with log := s.log ++ [n] }, none)
  | Cb.noteNow, s => ({ s with log := s.log ++ [s.now] }, none)
  | Cb.throwE n, s => (s, some (Err.userErr n))
  | Cb.tickRespawn, s =>
    (fakeNextTick Cb.tickRespawn { s with log := s.log ++ [1] }, none)
  | Cb.schedTimeout d c, s => ((fakeSetTimeout cfg c d s).1, none)
  | Cb.seq a b, s =>
    match runCb cfg a s with
    | (s1, some e) => (s1, some e)
    | (s1, none) => runCb cfg b s1

/-- `clearAllTimers`: `this._immediates = []; this._timers.clear()`.
(The tick sequence is not touched.) -/
def clearAllTimers (s : FakeTimers) : FakeTimers :=
  { s with immediates := [], timers := [] }

/-- `dispose`: set the disposed flag, then `clearAllTimers`. -/
def dispose (s : FakeTimers) : FakeTimers :=
  clearAllTimers { s with disposed := true }

/-- `reset`: clear cancelled ticks, reset the clock, and empty the three
containers. -/
def reset (s : FakeTimers) : FakeTimers :=
  { s with cancelledTicks := [], now := 0, ticks := [], immediates := [], timers := [] }

/-- `getTimerCount`: `timers.size + immediates.length + ticks.length` (the
preceding `_checkFakeTimers` call only emits a console warning). -/
def getTimerCount (s : FakeTimers) : Nat :=
  s.timers.length + s.immediates.length + s.ticks.length

/-- `_checkFakeTimers`: `true` when the "timers API is not mocked" console
warning fires (`global.setTimeout !== this._fakeTimerAPIs?.setTimeout`).
Pure I/O; callers ignore the result. -/
def checkFakeTimers (s : FakeTimers) : Bool :=
  s.globalAPIs.setTimeout ≠ (s.fakeTimerAPIs.map TimerAPI.setTimeout).join

/-- The body of the `runAllTicks` loop, with `fuel = maxLoops - i` remaining
iterations.  `fuel = 0` is `i === maxLoops`, which throws. -/
def runTicksAux (cfg : TimerConfig Ref) : Nat → FakeTimers → FakeTimers × Option Err
  | 0, s => (s, some (Err.recursionLimit DrainKind.ticks s.maxLoops))
  | fuel + 1, s =>
    match s.ticks with
    | [] => (s, none)
    | tick :: rest =>
      let s1 := { s with ticks := rest }
      if s1.cancelledTicks.contains tick.uuid then runTicksAux cfg fuel s1
      else
        let s2 := { s1 with cancelledTicks := tick.uuid :: s1.cancelledTicks }
        match runCb cfg tick.callback s2 with
        | (s3, some e) => (s3, some e)
        | (s3, none) => runTicksAux cfg fuel s3

/-- `runAllTicks`: pop ticks, skipping and marking cancelled ids, for at most
`maxLoops` iterations. -/
def runAllTicks (cfg : TimerConfig Ref) (s : FakeTimers) : FakeTimers × Option Err :=
  runTicksAux cfg s.maxLoops s

/-- `_runImmediate`: run the callback; the `finally` clears the immediate
even when the callback throws, and the exception is then re-raised. -/
def runImmediate (cfg : TimerConfig Ref) (immediate : Tick) (s : FakeTimers) :
    FakeTimers × Option Err :=
  let (s1, e) := runCb cfg immediate.callback s
  (fakeClearImmediate immediate.uuid s1, e)

/-- The body of the `runAllImmediates` loop (cf. `runTicksAux`). -/
def runImmediatesAux (cfg : TimerConfig Ref) : Nat → FakeTimers → FakeTimers × Option Err
  | 0, s => (s, some (Err.recursionLimit DrainKind.immediates s.maxLoops))
  | fuel + 1, s =>
    match s.immediates with
    | [] => (s, none)
    | immediate :: rest =>
      match runImmediate cfg immediate { s with immediates := rest } with
      | (s1, some e) => (s1, some e)
      | (s1, none) => runImmediatesAux cfg fuel s1

/-- `runAllImmediates`: shift and run immediates for at most `maxLoops`
iterations. -/
def runAllImmediates (cfg : TimerConfig Ref) (s : FakeTimers) : FakeTimers × Option Err :=
  runImmediatesAux cfg s.maxLoops s

/-- `_getNextTimerHandle`: fold over the map in insertion order keeping the
first strictly-smallest expiry, starting from the `MS_IN_A_YEAR` sentinel. -/
def getNextTimerHandle (s : FakeTimers) : Option Int :=
  (s.timers.foldl
    (fun acc p => if p.2.expiry < acc.2 then (some p.1, p.2.expiry) else acc)
    ((none : Option Int), MS_IN_A_YEAR)).1

/-- `_runTimerHandle`: look the handle up (a missing handle is a no-op); a
timeout is deleted before its callback runs; an interval is re-scheduled to
`now + (interval || 0)` before its callback runs; any other kind throws. -/
def runTimerHandle (cfg : TimerConfig Ref) (timerHandle : Int) (s : FakeTimers) :
    FakeTimers × Option Err :=
  match mapGet s.timers timerHandle with
  | none => (s, none)
  | some timer =>
    match timer.type with
    | TimerType.timeout =>
      runCb cfg timer.callback { s with timers := mapDelete s.timers timerHandle }
    | TimerType.interval =>
      runCb cfg timer.callback
        { s with
          timers := mapSet s.timers timerHandle
            { timer with expiry := s.now + timer.interval.getD 0 } }
    | TimerType.other tag => (s, some (Err.unexpectedTimerType (TimerType.other tag)))

/-- The body of the `runAllTimers` main loop: pick the next handle, run it,
then re-drain any newly scheduled immediates and ticks. -/
def runTimersAux (cfg : TimerConfig Ref) : Nat → FakeTimers → FakeTimers × Option Err
  | 0, s => (s, some (Err.recursionLimit DrainKind.timers s.maxLoops))
  | fuel + 1, s =>
    match getNextTimerHandle s with
    | none => (s, none)
    | some nextTimerHandle =>
      match runTimerHandle cfg nextTimerHandle s with
      | (s1, some e) => (s1, some e)
      | (s1, none) =>
        let (s2, e2) :=
          if s1.immediates.length ≠ 0 then runAllImmediates cfg s1 else (s1, none)
        match e2 with
        | some e => (s2, some e)
        | none =>
          let (s3, e3) :=
            if s2.ticks.length ≠ 0 then runAllTicks cfg s2 else (s2, none)
          match e3 with
          | some e => (s3, some e)
          | none => runTimersAux cfg fuel s3

/-- `runAllTimers`: drain ticks, then immediates, then loop over next timer
handles (at most `maxLoops` of them), interleaving newly scheduled
immediates/ticks after each timer. -/
def runAllTimers (cfg : TimerConfig Ref) (s : FakeTimers) : FakeTimers × Option Err :=
  match runAllTicks cfg s with
  | (s1, some e) => (s1, some e)
  | (s1, none) =>
    match runAllImmediates cfg s1 with
    | (s2, some e) => (s2, some e)
    | (s2, none) => runTimersAux cfg s.maxLoops s2

/-- The body of the `advanceTimersByTime` loop, carrying the remaining
`msToRun` budget. -/
def advanceAux (cfg : TimerConfig Ref) : Nat → Int → FakeTimers → FakeTimers × Option Err
  | 0, _, s => (s, some (Err.recursionLimit DrainKind.timers s.maxLoops))
  | fuel + 1, msToRun, s =>
    match getNextTimerHandle s with
    | none => (s, none)
    | some timerHandle =>
      match mapGet s.timers timerHandle with
      | none => (s, none)
      | some timerValue =>
        let nextTimerExpiry := timerValue.expiry
        if s.now + msToRun < nextTimerExpiry then
          ({ s with now := s.now + msToRun }, none)
        else
          let msToRun2 := msToRun - (nextTimerExpiry - s.now)
          match runTimerHandle cfg timerHandle { s with now := nextTimerExpiry } with
          | (s1, some e) => (s1, some e)
          | (s1, none) => advanceAux cfg fuel msToRun2 s1

/-- `advanceTimersByTime(msToRun)`: fire every timer whose expiry falls
within the budget, advancing `now` to each expiry, then spend the leftover
budget on the clock. -/
def advanceTimersByTime (cfg : TimerConfig Ref) (msToRun : Int) (s : FakeTimers) :
    FakeTimers × Option Err :=
  advanceAux cfg s.maxLoops msToRun s

/-- reduce over the timer values computing the minimum expiry (`null` when
the map is empty), as in `advanceTimersToNextTimer`. -/
def nextExpiryOf (l : List (Int × Timer)) : Option Int :=
  l.foldl
    (fun acc p =>
      match acc with
      | none => some p.2.expiry
      | some minExpiry =>
        if p.2.expiry < minExpiry then some p.2.expiry else some minExpiry)
    none

/-- `advanceTimersToNextTimer(steps = 1)`: advance by `minExpiry - now` and
recurse; `steps < 1` returns immediately (steps modelled as `Nat`). -/
def advanceTimersToNextTimer (cfg : TimerConfig Ref) : Nat → FakeTimers → FakeTimers × Option Err
  | 0, s => (s, none)
  | steps + 1, s =>
    match nextExpiryOf s.timers with
    | none => (s, none)
    | some nextExpiry =>
      match advanceTimersByTime cfg (nextExpiry - s.now) s with
      | (s1, some e) => (s1, some e)
      | (s1, none) => advanceTimersToNextTimer cfg steps s1

/-- Insertion step of the stable sort: the new entry goes before the first
entry with expiry `≥` its own.  `sortByExpiry` inserts the elements from the
last to the first (`foldr`), so an earlier element is inserted later and
lands in front of the equal-expiry elements already placed: equal-expiry
ties keep their original order, which is the tie-behaviour of the (stable,
per ES2019) `Array.prototype.sort` under the comparator
`left.expiry - right.expiry`. -/
def insertByExpiry (x : Int × Timer) : List (Int × Timer) → List (Int × Timer)
  | [] => [x]
  | y :: ys =>
    if x.2.expiry ≤ y.2.expiry then x :: y :: ys else y :: insertByExpiry x ys

/-- Stable sort of timer entries by ascending expiry (ties keep insertion
order, as in the source's stable `Array.prototype.sort`). -/
def sortByExpiry (l : List (Int × Timer)) : List (Int × Timer) :=
  l.foldr insertByExpiry []

/-- Run a list of immediates in order, stopping at the first exception (the
`forEach` in `runOnlyPendingTimers`; per the `forEach` contract the range of
elements is fixed before the first call, so the iteration works on the
snapshot even though `_fakeClearImmediate` replaces `this._immediates`). -/
def runImmediatesSeq (cfg : TimerConfig Ref) : List Tick → FakeTimers → FakeTimers × Option Err
  | [], s => (s, none)
  | immediate :: rest, s =>
    match runImmediate cfg immediate s with
    | (s1, some e) => (s1, some e)
    | (s1, none) => runImmediatesSeq cfg rest s1

/-- Run a list of timer handles in order, stopping at the first exception. -/
def runHandlesSeq (cfg : TimerConfig Ref) : List Int → FakeTimers → FakeTimers × Option Err
  | [], s => (s, none)
  | h :: rest, s =>
    match runTimerHandle cfg h s with
    | (s1, some e) => (s1, some e)
    | (s1, none) => runHandlesSeq cfg rest s1

/-- `runOnlyPendingTimers`: snapshot the timer entries, run the immediates
present at the start, then run the snapshotted handles sorted by expiry
(stable, so ties keep insertion order). -/
def runOnlyPendingTimers (cfg : TimerConfig Ref) (s : FakeTimers) : FakeTimers × Option Err :=
  let timerEntries := s.timers
  match runImmediatesSeq cfg s.immediates s with
  | (s1, some e) => (s1, some e)
  | (s1, none) => runHandlesSeq cfg ((sortByExpiry timerEntries).map Prod.fst) s1

/-- The fixed table of mock primitives built by `_createMocks` (mock function
identities are abstracted into fixed labels distinct from any original the
concrete scenarios use). -/
def fakeAPIs : TimerAPI where
  cancelAnimationFrame := some 100
  clearImmediate := some 101
  clearInterval := some 102
  clearTimeout := some 103
  nextTick := some 104
  requestAnimationFrame := some 105
  setImmediate := some 106
  setInterval := some 107
  setTimeout := some 108

/-- `_createMocks`: (re)build the fake-API table. -/
def createMocks (s : FakeTimers) : FakeTimers :=
  { s with fakeTimerAPIs := some fakeAPIs }

/-- `useRealTimers`: write the originals back into the host globals; the
animation-frame pair, `clearImmediate` and `setImmediate` are written only
when the host currently defines them as functions.
`setGlobal` (from the utility package, not part of this scheduler) is
modelled from the spec as plain assignment of the named global. -/
def useRealTimers (s : FakeTimers) : FakeTimers :=
  let g0 := s.globalAPIs
  let g1 := if g0.cancelAnimationFrame.isSome then
      { g0 with cancelAnimationFrame := s.timerAPIs.cancelAnimationFrame } else g0
  let g2 := if g1.clearImmediate.isSome then
      { g1 with clearImmediate := s.timerAPIs.clearImmediate } else g1
  let g3 := { g2 with clearInterval := s.timerAPIs.clearInterval,
                      clearTimeout := s.timerAPIs.clearTimeout }
  let g4 := if g3.requestAnimationFrame.isSome then
      { g3 with requestAnimationFrame := s.timerAPIs.requestAnimationFrame } else g3
  let g5 := if g4.setImmediate.isSome then
      { g4 with setImmediate := s.timerAPIs.setImmediate } else g4
  let g6 := { g5 with setInterval := s.timerAPIs.setInterval,
                      setTimeout := s.timerAPIs.setTimeout,
                      nextTick := s.timerAPIs.nextTick }
  { s with globalAPIs := g6 }

/-- `useFakeTimers`: build the mocks, then write them into the host globals
under the same existence probes as `useRealTimers`. -/
def useFakeTimers (s : FakeTimers) : FakeTimers :=
  let s1 := createMocks s
  let g0 := s1.globalAPIs
  let g1 := if g0.cancelAnimationFrame.isSome then
      { g0 with cancelAnimationFrame := fakeAPIs.cancelAnimationFrame } else g0
  let g2 := if g1.clearImmediate.isSome then
      { g1 with clearImmediate := fakeAPIs.clearImmediate } else g1
  let g3 := { g2 with clearInterval := fakeAPIs.clearInterval,
                      clearTimeout := fakeAPIs.clearTimeout }
  let g4 := if g3.requestAnimationFrame.isSome then
      { g3 with requestAnimationFrame := fakeAPIs.requestAnimationFrame } else g3
  let g5 := if g4.setImmediate.isSome then
      { g4 with setImmediate := fakeAPIs.setImmediate } else g4
  let g6 := { g5 with setInterval := fakeAPIs.setInterval,
                      setTimeout := fakeAPIs.setTimeout,
                      nextTick := fakeAPIs.nextTick }
  { s1 with globalAPIs := g6 }

/-- `runWithRealTimers(cb)`: snapshot seven of the installed primitives (the
animation-frame pair is not snapshotted), install the originals via
`useRealTimers`, invoke `cb` catching its exception, write the snapshot back,
and finally rethrow the caught exception. -/
def runWithRealTimers (cfg : TimerConfig Ref) (cb : Cb) (s : FakeTimers) :
    FakeTimers × Option Err :=
  let prevClearImmediate := s.globalAPIs.clearImmediate
  let prevClearInterval := s.globalAPIs.clearInterval
  let prevClearTimeout := s.globalAPIs.clearTimeout
  let prevNextTick := s.globalAPIs.nextTick
  let prevSetImmediate := s.globalAPIs.setImmediate
  let prevSetInterval := s.globalAPIs.setInterval
  let prevSetTimeout := s.globalAPIs.setTimeout
  let s1 := useRealTimers s
  let (s2, cbErr) := runCb cfg cb s1
  let s3 := { s2 with globalAPIs :=
    { s2.globalAPIs with
      clearImmediate := prevClearImmediate,
      clearInterval := prevClearInterval,
      clearTimeout := prevClearTimeout,
      nextTick := prevNextTick,
      setImmediate := prevSetImmediate,
      setInterval := prevSetInterval,
      setTimeout := prevSetTimeout } }
  (s3, cbErr)

/-- `_fakeRequestAnimationFrame`: a fake timeout of `1000 / 60` ms (which the
`| 0` coercion truncates to 16) whose callback receives the virtual clock;
the clock-passing wrapper lives inside the opaque callback. -/
def fakeRequestAnimationFrame (cfg : TimerConfig Ref) (callback : Cb) (s : FakeTimers) :
    FakeTimers × Option Ref :=
  fakeSetTimeout cfg callback (some (JSNum.int 16)) s

/-- Concrete ref↔id bridge used by the closed scenarios: refs are the ids
themselves (an integer-handle host). -/
def cfg0 : TimerConfig Int where
  idToRef := fun n => n
  refToId := fun r => some r

/-- A concrete table of original host primitives (distinct labels 0–8,
disjoint from the mock labels of `fakeAPIs`). -/
def origAPIs : TimerAPI where
  cancelAnimationFrame := some 0
  clearImmediate := some 1
  clearInterval := some 2
  clearTimeout := some 3
  nextTick := some 4
  requestAnimationFrame := some 5
  setImmediate := some 6
  setInterval := some 7
  setTimeout := some 8

/-- The scheduler as built by the constructor (uuid counter 1, `reset`
state, default `maxLoops` 100000) after `useFakeTimers()`: the mocks exist
and are installed in the host globals. -/
def initState : FakeTimers where
  cancelledTicks := []
  disposed := false
  globalAPIs := fakeAPIs
  fakeTimerAPIs := some fakeAPIs
  immediates := []
  maxLoops := 100000
  now := 0
  ticks := []
  timerAPIs := origAPIs
  timers := []
  uuidCounter := 1
  log := []

/-- Keys strictly ascending along insertion order.  States reachable through
the fake primitives satisfy this: ids are minted from the increasing uuid
counter, so insertion order coincides with ascending id. -/
def keysAsc (l : List (Int × Timer)) : Prop :=
  l.Pairwise (fun a b => a.1 < b.1)

instance keysAsc.instDecidable (l : List (Int × Timer)) : Decidable (keysAsc l) :=
  inferInstanceAs (Decidable (l.Pairwise fun (a b : Int × Timer) => a.1 < b.1))

/-- Whether a callback is a pure logging callback. -/
def isNote : Cb → Bool
  | Cb.note _ => true
  | _ => false

/-- Timer entries that are plain timeouts with pure logging callbacks and
expiries under the `MS_IN_A_YEAR` sentinel. -/
def pureNotes (l : List (Int × Timer)) : Prop :=
  ∀ p ∈ l, p.2.type = TimerType.timeout ∧ isNote p.2.callback = true ∧
    p.2.expiry < MS_IN_A_YEAR

instance pureNotes.instDecidable (l : List (Int × Timer)) : Decidable (pureNotes l) :=
  inferInstanceAs (Decidable (∀ p ∈ l, p.2.type = TimerType.timeout ∧
    isNote p.2.callback = true ∧ p.2.expiry < MS_IN_A_YEAR))

/-- The value the pure logging callback of a timer entry writes to the
log. -/
def noteVal (q : Int × Timer) : Int :=
  match q.2.callback with
  | Cb.note k => k
  | _ => 0

/-- Strict lexicographic order on timer entries: earlier expiry first, ties
broken by smaller id. -/
def timerLexLT (a b : Int × Timer) : Prop :=
  a.2.expiry < b.2.expiry ∨ (a.2.expiry = b.2.expiry ∧ a.1 < b.1)

/-- First entry with the strictly smallest expiry among `p :: l` (the
selection `_getNextTimerHandle` performs, minus the year sentinel). -/
def selMin : (Int × Timer) → List (Int × Timer) → (Int × Timer)
  | p, [] => p
  | p, q :: l => if q.2.expiry < p.2.expiry then selMin q l else selMin p l

/-- The order in which a full drain fires a map of timers: repeatedly select
the first minimal-expiry entry and remove it. -/
def fireOrder : Nat → List (Int × Timer) → List (Int × Timer)
  | 0, _ => []
  | _ + 1, [] => []
  | n + 1, p :: l =>
    let m := selMin p l
    m :: fireOrder n (mapDelete (p :: l) m.1)

/-- The entry `u ↦ t` is shielded from the drains: it is stored, every entry
under its key has expiry at or beyond the year sentinel, and its key is below
the uuid counter (so reentrant scheduling cannot mint it again). -/
def entryShielded (u : Int) (t : Timer) (s : FakeTimers) : Prop :=
  u < s.uuidCounter ∧ mapGet s.timers u = some t ∧
    ∀ p ∈ s.timers, p.1 = u → MS_IN_A_YEAR ≤ p.2.expiry

instance entryShielded.instDecidable (u : Int) (t : Timer) (s : FakeTimers) :
    Decidable (entryShielded u t s) :=
  inferInstanceAs (Decidable (u < s.uuidCounter ∧ mapGet s.timers u = some t ∧
    ∀ p ∈ s.timers, p.1 = u → MS_IN_A_YEAR ≤ p.2.expiry))

/-- A timer stored with expiry exactly at the `MS_IN_A_YEAR` sentinel (the
smallest expiry the next-timer search can never select). -/
def bigTimer : Timer where
  type := TimerType.timeout
  callback := Cb.note 666
  expiry := MS_IN_A_YEAR
  interval := none

/-- The C10 scenario: one timer at the year sentinel (id 50) plus one
ordinary timeout of delay 1 scheduled through the fake. -/
def c10state : FakeTimers :=
  (fakeSetTimeout cfg0 (Cb.note 1) (some (JSNum.int 1))
    { initState with timers := [(50, bigTimer)], uuidCounter := 51 }).1

/-- The C1 ordering scenario: timeouts with delays `[100, 200, 50]`
scheduled at virtual-now 0, each callback logging its own delay. -/
def c1state : FakeTimers :=
  let s := (fakeSetTimeout cfg0 (Cb.note 100) (some (JSNum.int 100)) initState).1
  let s := (fakeSetTimeout cfg0 (Cb.note 200) (some (JSNum.int 200)) s).1
  (fakeSetTimeout cfg0 (Cb.note 50) (some (JSNum.int 50)) s).1

/-- The C5 interval scenario: one interval of length 30 scheduled at
virtual-now 0, its callback logging the current virtual clock. -/
def c5state : FakeTimers :=
  (fakeSetInterval cfg0 Cb.noteNow (some 30) initState).1

/-- The C8 scenario: a timeout at 100 whose callback logs 100 and schedules
a fresh zero-delay timeout logging 999, an interval of length 50, and one
immediate logging 7. -/
def c8state : FakeTimers :=
  let s := (fakeSetTimeout cfg0
    (Cb.seq (Cb.note 100) (Cb.schedTimeout (some (JSNum.int 0)) (Cb.note 999)))
    (some (JSNum.int 100)) initState).1
  let s := (fakeSetInterval cfg0 Cb.noteNow (some 50) s).1
  (fakeSetImmediate (Cb.note 7) s).1

/-- The C8 tie scenario: two timeouts with the same expiry 10 (ids 1 and 2,
logging 1 and 2) — equal-expiry snapshotted timers must fire in insertion
(ascending id) order under the stable sort. -/
def c8tieState : FakeTimers :=
  let s := (fakeSetTimeout cfg0 (Cb.note 1) (some (JSNum.int 10)) initState).1
  (fakeSetTimeout cfg0 (Cb.note 2) (some (JSNum.int 10)) s).1

/-- The state fields a callback can never touch, together with monotonicity
of the uuid counter (used as a frame condition for `runCb`). -/
def cbFrame (s s' : FakeTimers) : Prop :=
  s'.now = s.now ∧ s'.globalAPIs = s.globalAPIs ∧ s'.fakeTimerAPIs = s.fakeTimerAPIs ∧
  s'.timerAPIs = s.timerAPIs ∧ s'.maxLoops = s.maxLoops ∧ s'.disposed = s.disposed ∧
  s'.immediates = s.immediates ∧ s'.cancelledTicks = s.cancelledTicks ∧
  s.uuidCounter ≤ s'.uuidCounter

theorem cbFrame_refl (s : FakeTimers) : cbFrame s s := by
  simp [cbFrame]

theorem cbFrame_trans {a b c : FakeTimers} (h1 : cbFrame a b) (h2 : cbFrame b c) :
    cbFrame a c := by
  obtain ⟨e1, e2, e3, e4, e5, e6, e7, e8, e9⟩ := h1
  obtain ⟨f1, f2, f3, f4, f5, f6, f7, f8, f9⟩ := h2
  refine ⟨?_, ?_, ?_, ?_, ?_, ?_, ?_, ?_, ?_⟩ <;> first | omega | (simp_all)

theorem runCb_cbFrame (cfg : TimerConfig Ref) (c : Cb) (s : FakeTimers) :
    cbFrame s (runCb cfg c s).1 := by
  induction c generalizing s with
  | note n => simp [runCb, cbFrame]
  | noteNow => simp [runCb, cbFrame]
  | throwE n => simp [runCb, cbFrame]
  | tickRespawn =>
    simp only [runCb, fakeNextTick]
    split <;> simp [cbFrame]
  | schedTimeout d c ih =>
    simp only [runCb, fakeSetTimeout]
    split <;> simp [cbFrame]
  | seq a b iha ihb =>
    have ha := iha s
    rcases hra : runCb cfg a s with ⟨s1, e⟩
    rw [hra] at ha
    cases e with
    | some er => simpa [runCb, hra] using ha
    | none =>
      have hb := ihb s1
      simp only [runCb, hra]
      exact cbFrame_trans ha hb

theorem mapGet_mapSet_ne (m : List (Int × Timer)) (k u : Int) (v : Timer) (h : k ≠ u) :
    mapGet (mapSet m k v) u = mapGet m u := by
  induction m with
  | nil => simp [mapSet, mapGet, h]
  | cons p rest ih =>
    obtain ⟨k0, v0⟩ := p
    by_cases hp : k0 = k
    · subst hp
      simp [mapSet, mapGet, h]
    · simp [mapSet, hp, mapGet, ih]

theorem mapGet_mapDelete_ne (m : List (Int × Timer)) (k u : Int) (h : k ≠ u) :
    mapGet (mapDelete m k) u = mapGet m u := by
  induction m with
  | nil => simp [mapDelete, mapGet]
  | cons p rest ih =>
    obtain ⟨k0, v0⟩ := p
    by_cases hp : k0 = k
    · subst hp
      simp [mapDelete, mapGet, h, ih]
    · simp [mapDelete, hp, mapGet, ih]

theorem mapGet_mapDelete_self (m : List (Int × Timer)) (k : Int) :
    mapGet (mapDelete m k) k = none := by
  induction m with
  | nil => simp [mapDelete, mapGet]
  | cons p rest ih =>
    obtain ⟨k0, v0⟩ := p
    by_cases hp : k0 = k
    · simp [mapDelete, hp, ih]
    · simp [mapDelete, hp, mapGet, ih]

theorem mapGet_eq_none_of_keys (m : List (Int × Timer)) (k : Int)
    (h : ∀ p ∈ m, p.1 ≠ k) : mapGet m k = none := by
  induction m with
  | nil => simp [mapGet]
  | cons p rest ih =>
    obtain ⟨k0, v0⟩ := p
    have hk0 : k0 ≠ k := h (k0, v0) (List.mem_cons_self _ _)
    simp only [mapGet, if_neg hk0]
    exact ih fun q hq => h q (List.mem_cons_of_mem _ hq)

theorem mapDelete_eq_self_of_get_none (m : List (Int × Timer)) (k : Int)
    (h : mapGet m k = none) : mapDelete m k = m := by
  induction m with
  | nil => simp [mapDelete]
  | cons p rest ih =>
    obtain ⟨k0, v0⟩ := p
    by_cases hp : k0 = k
    · simp [mapGet, hp] at h
    · simp only [mapGet, if_neg hp] at h
      simp [mapDelete, hp, ih h]

theorem mapDelete_sublist (m : List (Int × Timer)) (k : Int) :
    (mapDelete m k).Sublist m := by
  induction m with
  | nil => simp [mapDelete]
  | cons p rest ih =>
    obtain ⟨k0, v0⟩ := p
    by_cases hp : k0 = k
    · simp only [mapDelete, if_pos hp]
      exact ih.cons _
    · simp only [mapDelete, if_neg hp]
      exact ih.cons₂ _

theorem mem_of_mem_mapDelete {m : List (Int × Timer)} {k : Int} {p : Int × Timer}
    (h : p ∈ mapDelete m k) : p ∈ m ∧ p.1 ≠ k := by
  induction m with
  | nil => simp [mapDelete] at h
  | cons q rest ih =>
    obtain ⟨k0, v0⟩ := q
    by_cases hq : k0 = k
    · simp only [mapDelete, if_pos hq] at h
      exact ⟨List.mem_cons_of_mem _ (ih h).1, (ih h).2⟩
    · simp only [mapDelete, if_neg hq] at h
      rcases List.mem_cons.mp h with h1 | h1
      · subst h1
        exact ⟨List.mem_cons_self _ _, hq⟩
      · exact ⟨List.mem_cons_of_mem _ (ih h1).1, (ih h1).2⟩

theorem mem_mapSet {m : List (Int × Timer)} {k : Int} {v : Timer} {p : Int × Timer}
    (h : p ∈ mapSet m k v) : p ∈ m ∨ p = (k, v) := by
  induction m with
  | nil => simpa [mapSet] using h
  | cons q rest ih =>
    obtain ⟨k0, v0⟩ := q
    by_cases hq : k0 = k
    · simp only [mapSet, if_pos hq] at h
      rcases List.mem_cons.mp h with h1 | h1
      · exact Or.inr h1
      · exact Or.inl (List.mem_cons_of_mem _ h1)
    · simp only [mapSet, if_neg hq] at h
      rcases List.mem_cons.mp h with h1 | h1
      · exact Or.inl (h1 ▸ List.mem_cons_self _ _)
      · rcases ih h1 with h2 | h2
        · exact Or.inl (List.mem_cons_of_mem _ h2)
        · exact Or.inr h2

theorem mapGet_of_mem_keysAsc {m : List (Int × Timer)} {u : Int} {t : Timer}
    (hasc : keysAsc m) (h : (u, t) ∈ m) : mapGet m u = some t := by
  induction m with
  | nil => simp at h
  | cons p rest ih =>
    obtain ⟨k0, v0⟩ := p
    rcases List.mem_cons.mp h with h1 | h1
    · obtain ⟨h2, h3⟩ := Prod.mk.injEq .. ▸ h1
      simp [mapGet, h2.symm, h3]
    · have hk0 : k0 ≠ u := by
        have := (List.pairwise_cons.mp hasc).1 (u, t) h1
        simp only at this
        omega
      simp only [mapGet, if_neg hk0]
      exact ih (List.pairwise_cons.mp hasc).2 h1

theorem length_mapDelete_of_get_some {m : List (Int × Timer)} {u : Int} {t : Timer}
    (hasc : keysAsc m) (h : mapGet m u = some t) :
    (mapDelete m u).length + 1 = m.length := by
  induction m with
  | nil => simp [mapGet] at h
  | cons p rest ih =>
    obtain ⟨k0, v0⟩ := p
    by_cases hp : k0 = u
    · have hrest : mapDelete rest u = rest := by
        refine mapDelete_eq_self_of_get_none rest u (mapGet_eq_none_of_keys rest u ?_)
        intro q hq
        have := (List.pairwise_cons.mp hasc).1 q hq
        omega
      simp [mapDelete, hp, hrest]
    · simp only [mapGet, if_neg hp] at h
      simp [mapDelete, hp, ih (List.pairwise_cons.mp hasc).2 h]

theorem perm_cons_mapDelete {m : List (Int × Timer)} {u : Int} {t : Timer}
    (hasc : keysAsc m) (h : mapGet m u = some t) :
    ((u, t) :: mapDelete m u).Perm m := by
  induction m with
  | nil => simp [mapGet] at h
  | cons p rest ih =>
    obtain ⟨k0, v0⟩ := p
    by_cases hp : k0 = u
    · have ht : v0 = t := by simpa [mapGet, hp] using h
      have hrest : mapDelete rest u = rest := by
        refine mapDelete_eq_self_of_get_none rest u (mapGet_eq_none_of_keys rest u ?_)
        intro q hq
        have := (List.pairwise_cons.mp hasc).1 q hq
        omega
      subst ht
      subst hp
      simp [mapDelete, hrest]
    · simp only [mapGet, if_neg hp] at h
      have hperm := ih (List.pairwise_cons.mp hasc).2 h
      simp only [mapDelete, if_neg hp]
      exact List.Perm.trans (List.Perm.swap _ _ _) (hperm.cons _)

/-- C2 (counterexample): `clearAllTimers()` does NOT empty all three
containers — the tick sequence is left alone (`clearAllTimers` only resets
`_immediates` and `_timers`), so with one pending tick `getTimerCount()` is
1, not 0, immediately afterwards. -/
theorem c2_clearAllTimers_counterexample :
    getTimerCount (clearAllTimers (fakeNextTick (Cb.note 3) initState)) ≠ 0 := by
  decide

/-- C2 (amended): `clearAllTimers()` empties the timer map and the immediate
sequence but not the tick sequence, so `getTimerCount()` immediately
afterwards equals the number of pending ticks (0 only when no ticks are
pending); virtual-now and the cancelled-ticks set are left unchanged. -/
theorem c2_clearAllTimers_amended (s : FakeTimers) :
    (clearAllTimers s).timers = [] ∧
    (clearAllTimers s).immediates = [] ∧
    (clearAllTimers s).ticks = s.ticks ∧
    (clearAllTimers s).now = s.now ∧
    (clearAllTimers s).cancelledTicks = s.cancelledTicks ∧
    getTimerCount (clearAllTimers s) = s.ticks.length := by
  simp [clearAllTimers, getTimerCount]

/-- C3 (counterexample): after `dispose()` with one pending tick,
`getTimerCount()` is 1, not 0, because `dispose` clears via
`clearAllTimers`, which leaves the tick sequence alone. -/
theorem c3_dispose_counterexample :
    getTimerCount (dispose (fakeNextTick (Cb.note 4) initState)) ≠ 0 := by
  decide

/-- C3 (amended): `dispose()` sets the disposed flag and empties the timer
map and immediate sequence, but pending ticks survive, so `getTimerCount()`
afterwards equals the number of pending ticks (0 only when none were
pending).  Every subsequent call to a fake primitive returns a null-ish
value (`null` for setTimeout/setInterval/setImmediate, `undefined` for
nextTick) without modifying any container, so no container ever grows
again. -/
theorem c3_dispose_amended (Ref : Type) (cfg : TimerConfig Ref) (cb : Cb)
    (d : Option JSNum) (di : Option Int) (s : FakeTimers) :
    (dispose s).disposed = true ∧
    (dispose s).timers = [] ∧
    (dispose s).immediates = [] ∧
    (dispose s).ticks = s.ticks ∧
    getTimerCount (dispose s) = s.ticks.length ∧
    fakeSetTimeout cfg cb d (dispose s) = (dispose s, none) ∧
    fakeSetInterval cfg cb di (dispose s) = (dispose s, none) ∧
    fakeSetImmediate cb (dispose s) = (dispose s, none) ∧
    fakeNextTick cb (dispose s) = dispose s := by
  simp [dispose, clearAllTimers, getTimerCount, fakeSetTimeout, fakeSetInterval,
    fakeSetImmediate, fakeNextTick]

/-- C4 (counterexample): the delay coercion `Number(delay) | 0` is ToInt32,
which keeps negative delays negative — it does not clamp them to 0.  A fake
timeout with delay −5 at virtual-now 0 is stored with expiry −5, not 0. -/
theorem c4_setTimeout_coercion_counterexample :
    mapGet (fakeSetTimeout cfg0 (Cb.note 0) (some (JSNum.int (-5))) initState).1.timers 1 =
      some { type := TimerType.timeout, callback := Cb.note 0,
             expiry := -5, interval := none } ∧
    (-5 : Int) ≠ 0 := by
  decide

/-- C4 (amended): the fake setTimeout coerces its delay by ToInt32
(truncation into the signed 32-bit range): an absent or non-numeric delay
becomes 0, but a negative delay stays negative.  It stores a timeout timer
with expiry `now + coerced delay` under a fresh id and returns
`idToRef` of that id. -/
theorem c4_setTimeout_coercion_amended (Ref : Type) (cfg : TimerConfig Ref) (cb : Cb)
    (d : Option JSNum) (s : FakeTimers) (h : s.disposed = false) :
    fakeSetTimeout cfg cb d s =
      ({ s with
          uuidCounter := s.uuidCounter + 1,
          timers := mapSet s.timers s.uuidCounter
            { type := TimerType.timeout, callback := cb,
              expiry := s.now + toInt32 d, interval := none } },
        some (cfg.idToRef s.uuidCounter)) ∧
    toInt32 none = 0 ∧
    toInt32 (some JSNum.nan) = 0 ∧
    (∀ n : Int, toInt32 (some (JSNum.int n)) = (n + 2 ^ 31) % 2 ^ 32 - 2 ^ 31) ∧
    toInt32 (some (JSNum.int (-5))) = -5 ∧
    toInt32 (some (JSNum.int (2 ^ 31))) = -(2 ^ 31) := by
  refine ⟨by simp [fakeSetTimeout, h], by decide, by decide, fun n => rfl, by decide, by decide⟩

/-- C4 (witness). -/
theorem c4_setTimeout_coercion_witness :
    initState.disposed = false ∧
    fakeSetTimeout cfg0 (Cb.note 0) (some (JSNum.int (-5))) initState =
      ({ initState with
          uuidCounter := 2,
          timers := mapSet initState.timers 1
            { type := TimerType.timeout, callback := Cb.note 0,
              expiry := -5, interval := none } },
        some 1) := by
  refine ⟨by decide, ?_⟩
  have h := (c4_setTimeout_coercion_amended Int cfg0 (Cb.note 0)
    (some (JSNum.int (-5))) initState (by decide)).1
  simpa [initState, cfg0] using h

/-- C6: a tick callback that always registers another tick, drained by
`runAllTicks()` on a scheduler with `maxLoops = 5`, runs exactly 5 callbacks
(the log receives five entries) and then raises the recursion error naming
the tick drain ("Ran 5 ticks, and there are still more! ..." — modelled by
`Err.recursionLimit DrainKind.ticks 5`).  The state after the error is
intact: the remaining queued tick (id 6) is still present, the five consumed
ids are marked cancelled, and further drains can be attempted on the
returned state. -/
theorem c6_tick_recursion_guard :
    runAllTicks cfg0 (fakeNextTick Cb.tickRespawn { initState with maxLoops := 5 }) =
      ({ initState with
          maxLoops := 5,
          cancelledTicks := [5, 4, 3, 2, 1],
          ticks := [{ uuid := 6, callback := Cb.tickRespawn }],
          uuidCounter := 7,
          log := [1, 1, 1, 1, 1] },
        some (Err.recursionLimit DrainKind.ticks 5)) := by
  decide

/-- C9: clearing a ref that does not correspond to any stored timer is the
identity on the scheduler state (this covers `clearTimeout`,
`clearInterval` and `cancelAnimationFrame`, which are all bound to
`_fakeClearTimer`), and clearing the same ref twice always equals clearing
it once. -/
theorem c9_clear_idempotent (Ref : Type) (cfg : TimerConfig Ref) (ref : Ref)
    (s : FakeTimers)
    (habsent : ∀ u, cfg.refToId ref = some u → mapGet s.timers u = none) :
    fakeClearTimer cfg ref s = s ∧
    ∀ (r2 : Ref) (s2 : FakeTimers),
      fakeClearTimer cfg r2 (fakeClearTimer cfg r2 s2) = fakeClearTimer cfg r2 s2 := by
  constructor
  · unfold fakeClearTimer
    cases hid : cfg.refToId ref with
    | none => rfl
    | some u =>
      by_cases hu : u = 0
      · simp [hu]
      · have hnone := habsent u hid
        simp [hu, mapDelete_eq_self_of_get_none s.timers u hnone]
  · intro r2 s2
    unfold fakeClearTimer
    cases hid : cfg.refToId r2 with
    | none => rfl
    | some u =>
      by_cases hu : u = 0
      · simp [hu]
      · simp only [if_neg hu]
        have : mapGet (mapDelete s2.timers u) u = none := mapGet_mapDelete_self s2.timers u
        simp [mapDelete_eq_self_of_get_none _ u this]

/-- C9 (witness). -/
theorem c9_clear_idempotent_witness :
    fakeClearTimer cfg0 99 initState = initState := by
  exact (c9_clear_idempotent Int cfg0 99 initState (by decide)).1

/-- C7 (counterexample): `runWithRealTimers(cb)` does not restore all of the
previously installed primitives: it snapshots only seven of them, and the
animation-frame pair is overwritten with the originals by the inner
`useRealTimers()` call and never restored.  Starting with the fakes
installed, `requestAnimationFrame` after the call differs from the fake
that was installed before it. -/
theorem c7_runWithRealTimers_counterexample :
    (runWithRealTimers cfg0 (Cb.note 0) initState).1.globalAPIs.requestAnimationFrame ≠
      initState.globalAPIs.requestAnimationFrame := by
  decide

/-- C7 (amended): `runWithRealTimers(cb)` snapshots the seven non
animation-frame primitives, installs the originals, invokes `cb`, restores
those seven whether or not `cb` threw, and rethrows `cb`'s exception; the
animation-frame pair is left as `useRealTimers` set it (the originals, when
the host defines them).  Virtual-now is unchanged by the call. -/
theorem c7_runWithRealTimers_amended (Ref : Type) (cfg : TimerConfig Ref) (cb : Cb)
    (s : FakeTimers) :
    (runWithRealTimers cfg cb s).1.globalAPIs.clearImmediate = s.globalAPIs.clearImmediate ∧
    (runWithRealTimers cfg cb s).1.globalAPIs.clearInterval = s.globalAPIs.clearInterval ∧
    (runWithRealTimers cfg cb s).1.globalAPIs.clearTimeout = s.globalAPIs.clearTimeout ∧
    (runWithRealTimers cfg cb s).1.globalAPIs.nextTick = s.globalAPIs.nextTick ∧
    (runWithRealTimers cfg cb s).1.globalAPIs.setImmediate = s.globalAPIs.setImmediate ∧
    (runWithRealTimers cfg cb s).1.globalAPIs.setInterval = s.globalAPIs.setInterval ∧
    (runWithRealTimers cfg cb s).1.globalAPIs.setTimeout = s.globalAPIs.setTimeout ∧
    (runWithRealTimers cfg cb s).1.globalAPIs.requestAnimationFrame =
      (useRealTimers s).globalAPIs.requestAnimationFrame ∧
    (runWithRealTimers cfg cb s).1.globalAPIs.cancelAnimationFrame =
      (useRealTimers s).globalAPIs.cancelAnimationFrame ∧
    (runWithRealTimers cfg cb s).1.now = s.now ∧
    (runWithRealTimers cfg cb s).2 = (runCb cfg cb (useRealTimers s)).2 := by
  have hframe := runCb_cbFrame cfg cb (useRealTimers s)
  rcases hr : runCb cfg cb (useRealTimers s) with ⟨s2, e⟩
  rw [hr] at hframe
  obtain ⟨hnow, hglob, -⟩ := hframe
  have hnow1 : s2.now = (useRealTimers s).now := hnow
  have hglob1 : s2.globalAPIs = (useRealTimers s).globalAPIs := hglob
  have hnow2 : (useRealTimers s).now = s.now := by simp [useRealTimers]
  simp [runWithRealTimers, hr, hglob1, hnow1, hnow2]

/-- C5: an interval of length 30 scheduled at virtual-now 0, driven by
`advanceTimersByTime(100)`, logs the virtual clock exactly at 30, 60 and 90
(three invocations), leaves virtual-now at 100, and leaves exactly one timer
entry, the interval itself with expiry 120.  In general, `_runTimerHandle`
on an interval first re-inserts the entry with `expiry = now + interval` and
only then runs its callback (so the callback observes the re-inserted
state). -/
theorem c5_interval_advance :
    (advanceTimersByTime cfg0 100 c5state =
      ({ initState with
          timers := [(1, { type := TimerType.interval, callback := Cb.noteNow,
                           expiry := 120, interval := some 30 })],
          uuidCounter := 2, now := 100, log := [30, 60, 90] }, none)) ∧
    (∀ (Ref : Type) (cfg : TimerConfig Ref) (h : Int) (t : Timer) (s : FakeTimers),
      mapGet s.timers h = some t → t.type = TimerType.interval →
      runTimerHandle cfg h s =
        runCb cfg t.callback
          { s with timers := mapSet s.timers h ({ t with expiry := s.now + t.interval.getD 0 }) }) := by
  constructor
  · decide
  · intro Ref cfg h t s hget htype
    simp [runTimerHandle, hget, htype]

/-- C5 (witness). -/
theorem c5_interval_advance_witness :
    mapGet c5state.timers 1 =
      some { type := TimerType.interval, callback := Cb.noteNow,
             expiry := 30, interval := some 30 } ∧
    runTimerHandle cfg0 1 c5state =
      runCb cfg0 Cb.noteNow
        { c5state with timers := mapSet c5state.timers 1 ({ type := TimerType.interval, callback := Cb.noteNow, expiry := 30, interval := some 30 }) } := by
  refine ⟨by decide, ?_⟩
  have h := (c5_interval_advance).2 Int cfg0 1
    { type := TimerType.interval, callback := Cb.noteNow, expiry := 30, interval := some 30 }
    c5state (by decide) rfl
  simpa [c5state, initState, fakeSetInterval, cfg0] using h

theorem runImmediate_now (cfg : TimerConfig Ref) (im : Tick) (s : FakeTimers) :
    (runImmediate cfg im s).1.now = s.now := by
  have h := runCb_cbFrame cfg im.callback s
  rcases hr : runCb cfg im.callback s with ⟨s1, e⟩
  rw [hr] at h
  have h1 : s1.now = s.now := h.1
  simp [runImmediate, hr, fakeClearImmediate, h1]

theorem runImmediatesSeq_now (cfg : TimerConfig Ref) (l : List Tick) (s : FakeTimers) :
    (runImmediatesSeq cfg l s).1.now = s.now := by
  induction l generalizing s with
  | nil => rfl
  | cons im rest ih =>
    have hn := runImmediate_now cfg im s
    rcases hr : runImmediate cfg im s with ⟨s1, e⟩
    rw [hr] at hn
    cases e with
    | some er => simpa [runImmediatesSeq, hr] using hn
    | none => simpa [runImmediatesSeq, hr, ih s1] using hn

theorem runTimerHandle_now (cfg : TimerConfig Ref) (h : Int) (s : FakeTimers) :
    (runTimerHandle cfg h s).1.now = s.now := by
  unfold runTimerHandle
  cases hget : mapGet s.timers h with
  | none => rfl
  | some t =>
    cases htype : t.type with
    | timeout =>
      have := (runCb_cbFrame cfg t.callback { s with timers := mapDelete s.timers h }).1
      simpa [htype] using this
    | interval =>
      have := (runCb_cbFrame cfg t.callback
        { s with timers := mapSet s.timers h ({ t with expiry := s.now + t.interval.getD 0 }) }).1
      simpa [htype] using this
    | other tag => simp [htype]

theorem runHandlesSeq_now (cfg : TimerConfig Ref) (l : List Int) (s : FakeTimers) :
    (runHandlesSeq cfg l s).1.now = s.now := by
  induction l generalizing s with
  | nil => rfl
  | cons h rest ih =>
    have hn := runTimerHandle_now cfg h s
    rcases hr : runTimerHandle cfg h s with ⟨s1, e⟩
    rw [hr] at hn
    cases e with
    | some er => simpa [runHandlesSeq, hr] using hn
    | none => simpa [runHandlesSeq, hr, ih s1] using hn

/-- C8: `runOnlyPendingTimers()` on a state holding a timeout at expiry 100
(whose callback logs 100 and schedules a fresh zero-delay timeout logging
999), an interval at expiry 50 (callback logs the clock), and an immediate
logging 7: the immediate runs first, then the snapshotted timers in
ascending expiry order (the log is `[7, 0, 100]` — the interval's 0 before
the timeout's 100, and 999 is absent because the timeout scheduled during
the drain is not run by it); the interval is re-inserted (entry 2 remains,
having fired exactly once) and the during-drain timeout (entry 4, expiry 0)
is left pending.  Two snapshotted timers with the same expiry fire in
insertion (ascending id) order, per the stable sort.  In general the call
never advances virtual-now. -/
theorem c8_runOnlyPendingTimers :
    (runOnlyPendingTimers cfg0 c8state =
      ({ initState with
          timers := [(2, { type := TimerType.interval, callback := Cb.noteNow,
                           expiry := 50, interval := some 50 }),
                     (4, { type := TimerType.timeout, callback := Cb.note 999,
                           expiry := 0, interval := none })],
          uuidCounter := 5, log := [7, 0, 100] }, none)) ∧
    (runOnlyPendingTimers cfg0 c8tieState).1.log = [1, 2] ∧
    (∀ (Ref : Type) (cfg : TimerConfig Ref) (s : FakeTimers),
      (runOnlyPendingTimers cfg s).1.now = s.now) := by
  refine ⟨by decide, by decide, ?_⟩
  · intro Ref cfg s
    unfold runOnlyPendingTimers
    have hn := runImmediatesSeq_now cfg s.immediates s
    rcases hr : runImmediatesSeq cfg s.immediates s with ⟨s1, e⟩
    rw [hr] at hn
    cases e with
    | some er => simpa using hn
    | none => simpa [runHandlesSeq_now cfg _ s1] using hn

theorem selMin_mem : ∀ (l : List (Int × Timer)) (p : Int × Timer), selMin p l ∈ p :: l := by
  intro l
  induction l with
  | nil =>
    intro p
    simp [selMin]
  | cons q l' ih =>
    intro p
    by_cases hq : q.2.expiry < p.2.expiry
    · simp only [selMin, if_pos hq]
      exact List.mem_cons_of_mem _ (ih q)
    · simp only [selMin, if_neg hq]
      rcases List.mem_cons.mp (ih p) with h | h
      · rw [h]
        exact List.mem_cons_self _ _
      · exact List.mem_cons_of_mem _ (List.mem_cons_of_mem _ h)

theorem selMin_expiry_le : ∀ (l : List (Int × Timer)) (p : Int × Timer),
    (selMin p l).2.expiry ≤ p.2.expiry ∧ ∀ q ∈ l, (selMin p l).2.expiry ≤ q.2.expiry := by
  intro l
  induction l with
  | nil =>
    intro p
    simp [selMin]
  | cons q l' ih =>
    intro p
    by_cases hq : q.2.expiry < p.2.expiry
    · obtain ⟨h1, h2⟩ := ih q
      simp only [selMin, if_pos hq]
      refine ⟨by omega, ?_⟩
      intro r hr
      rcases List.mem_cons.mp hr with h | h
      · rw [h]; exact h1
      · exact h2 r h
    · obtain ⟨h1, h2⟩ := ih p
      simp only [selMin, if_neg hq]
      refine ⟨h1, ?_⟩
      intro r hr
      rcases List.mem_cons.mp hr with h | h
      · rw [h]; omega
      · exact h2 r h

theorem selMin_eq_self_of_expiry : ∀ (l : List (Int × Timer)) (p : Int × Timer),
    (selMin p l).2.expiry = p.2.expiry → selMin p l = p := by
  intro l
  induction l with
  | nil =>
    intro p _
    rfl
  | cons q l' ih =>
    intro p heq
    by_cases hq : q.2.expiry < p.2.expiry
    · exfalso
      have h1 := (selMin_expiry_le l' q).1
      simp only [selMin, if_pos hq] at heq
      omega
    · simp only [selMin, if_neg hq] at heq ⊢
      exact ih p heq

theorem selMin_lex : ∀ (l : List (Int × Timer)) (p : Int × Timer),
    keysAsc (p :: l) → ∀ q ∈ p :: l, q.1 ≠ (selMin p l).1 → timerLexLT (selMin p l) q := by
  intro l
  induction l with
  | nil =>
    intro p _ q hq hne
    rcases List.mem_cons.mp hq with h | h
    · exact absurd (by rw [h]; rfl) hne
    · simp at h
  | cons r l' ih =>
    intro p hasc q hq hne
    have hasc' : (p :: r :: l').Pairwise (fun a b => a.1 < b.1) := hasc
    by_cases hr : r.2.expiry < p.2.expiry
    · simp only [selMin, if_pos hr] at hne ⊢
      have hascr : keysAsc (r :: l') := (List.pairwise_cons.mp hasc').2
      rcases List.mem_cons.mp hq with h | h
      · left
        have h1 := (selMin_expiry_le l' r).1
        rw [h]
        omega
      · exact ih r hascr q h hne
    · simp only [selMin, if_neg hr] at hne ⊢
      have hsub : (p :: l').Sublist (p :: r :: l') := ((List.Sublist.refl l').cons r).cons₂ p
      have hascp : keysAsc (p :: l') := hasc'.sublist hsub
      rcases List.mem_cons.mp hq with h | h
      · exact ih p hascp q (h ▸ List.mem_cons_self _ _) hne
      · rcases List.mem_cons.mp h with h2 | h2
        · subst h2
          have h1 := (selMin_expiry_le l' p).1
          by_cases hlt : (selMin p l').2.expiry < q.2.expiry
          · exact Or.inl hlt
          · have hle : p.2.expiry ≤ q.2.expiry := not_lt.mp hr
            have heqp : (selMin p l').2.expiry = p.2.expiry := by omega
            have hself := selMin_eq_self_of_expiry l' p heqp
            rw [hself]
            right
            refine ⟨by omega, ?_⟩
            exact (List.pairwise_cons.mp hasc').1 q (List.mem_cons_self _ _)
        · exact ih p hascp q (List.mem_cons_of_mem _ h2) hne

theorem foldl_getNext_inv : ∀ (l : List (Int × Timer)) (m : Int × Timer),
    l.foldl (fun acc p => if p.2.expiry < acc.2 then (some p.1, p.2.expiry) else acc)
      (some m.1, m.2.expiry) = (some (selMin m l).1, (selMin m l).2.expiry) := by
  intro l
  induction l with
  | nil =>
    intro m
    simp [selMin]
  | cons q l' ih =>
    intro m
    by_cases hq : q.2.expiry < m.2.expiry
    · simp only [List.foldl_cons, if_pos hq, selMin, ih q]
    · simp only [List.foldl_cons, if_neg hq, selMin, ih m]

theorem getNextTimerHandle_cons (s : FakeTimers) (p : Int × Timer) (l : List (Int × Timer))
    (ht : s.timers = p :: l) (hp : p.2.expiry < MS_IN_A_YEAR) :
    getNextTimerHandle s = some (selMin p l).1 := by
  unfold getNextTimerHandle
  rw [ht]
  simp only [List.foldl_cons]
  rw [if_pos hp, foldl_getNext_inv l p]

theorem fireOrder_sub : ∀ (n : Nat) (m : List (Int × Timer)) (x : Int × Timer),
    x ∈ fireOrder n m → x ∈ m := by
  intro n
  induction n with
  | zero =>
    intro m x hx
    simp [fireOrder] at hx
  | succ n ih =>
    intro m x hx
    cases m with
    | nil => simp [fireOrder] at hx
    | cons p l =>
      simp only [fireOrder] at hx
      rcases List.mem_cons.mp hx with h | h
      · exact h ▸ selMin_mem l p
      · exact (mapDelete_sublist _ _).subset (ih _ x h)

theorem fireOrder_pairwise : ∀ (n : Nat) (m : List (Int × Timer)),
    keysAsc m → (fireOrder n m).Pairwise timerLexLT := by
  intro n
  induction n with
  | zero =>
    intro m _
    simp [fireOrder]
  | succ n ih =>
    intro m hasc
    cases m with
    | nil => simp [fireOrder]
    | cons p l =>
      have hasc' : (p :: l).Pairwise (fun a b => a.1 < b.1) := hasc
      simp only [fireOrder]
      refine List.pairwise_cons.mpr ⟨?_, ih _ (hasc'.sublist (mapDelete_sublist _ _))⟩
      intro x hx
      obtain ⟨hxm, hxne⟩ := mem_of_mem_mapDelete (fireOrder_sub _ _ x hx)
      exact selMin_lex l p hasc x hxm hxne

theorem fireOrder_perm : ∀ (n : Nat) (m : List (Int × Timer)),
    keysAsc m → m.length = n → (fireOrder n m).Perm m := by
  intro n
  induction n with
  | zero =>
    intro m _ hlen
    have hm : m = [] := List.length_eq_zero.mp hlen
    subst hm
    simp [fireOrder]
  | succ n ih =>
    intro m hasc hlen
    cases m with
    | nil => simp at hlen
    | cons p l =>
      have hasc' : (p :: l).Pairwise (fun a b => a.1 < b.1) := hasc
      simp only [fireOrder]
      have hmem : selMin p l ∈ p :: l := selMin_mem l p
      have hget : mapGet (p :: l) (selMin p l).1 = some (selMin p l).2 :=
        mapGet_of_mem_keysAsc hasc hmem
      have hperm : (((selMin p l).1, (selMin p l).2) :: mapDelete (p :: l) (selMin p l).1).Perm
          (p :: l) := perm_cons_mapDelete hasc hget
      have hlen' : (mapDelete (p :: l) (selMin p l).1).length = n := by
        have hthis := length_mapDelete_of_get_some hasc hget
        simp only [List.length_cons] at hlen hthis
        omega
      have ihp := ih _ (hasc'.sublist (mapDelete_sublist _ _)) hlen'
      exact List.Perm.trans (ihp.cons _) hperm

theorem runTicksAux_empty (cfg : TimerConfig Ref) (fuel : Nat) (s : FakeTimers)
    (h : s.ticks = []) (hf : 0 < fuel) : runTicksAux cfg fuel s = (s, none) := by
  cases fuel with
  | zero => omega
  | succ n => simp [runTicksAux, h]

theorem runImmediatesAux_empty (cfg : TimerConfig Ref) (fuel : Nat) (s : FakeTimers)
    (h : s.immediates = []) (hf : 0 < fuel) : runImmediatesAux cfg fuel s = (s, none) := by
  cases fuel with
  | zero => omega
  | succ n => simp [runImmediatesAux, h]

theorem runTimersAux_step (cfg : TimerConfig Ref) (fm : Nat) (s s1 : FakeTimers) (h : Int)
    (hnext : getNextTimerHandle s = some h)
    (hrun : runTimerHandle cfg h s = (s1, none))
    (himm : s1.immediates = []) (hticks : s1.ticks = []) :
    runTimersAux cfg (fm + 1) s = runTimersAux cfg fm s1 := by
  simp only [runTimersAux, hnext, hrun, himm, hticks]
  simp [hticks]

theorem runTimersAux_pure (cfg : TimerConfig Ref) :
    ∀ (n fuel : Nat) (s : FakeTimers),
      s.timers.length = n → n < fuel → keysAsc s.timers → pureNotes s.timers →
      s.ticks = [] → s.immediates = [] →
      runTimersAux cfg fuel s =
        ({ s with timers := [],
                  log := s.log ++ (fireOrder n s.timers).map noteVal }, none) := by
  intro n
  induction n with
  | zero =>
    intro fuel s hlen hfuel hasc hpure hticks himm
    have ht : s.timers = [] := List.length_eq_zero.mp hlen
    have hnext : getNextTimerHandle s = none := by
      simp [getNextTimerHandle, ht]
    cases fuel with
    | zero => omega
    | succ m =>
      have hs : ({ s with timers := [], log := s.log ++ (fireOrder 0 s.timers).map noteVal } : FakeTimers) = s := by
        show ({ s with timers := [], log := s.log ++ [] } : FakeTimers) = s
        rw [List.append_nil, ← ht]
      simp only [runTimersAux, hnext]
      rw [hs]
  | succ n ih =>
    intro fuel s hlen hfuel hasc hpure hticks himm
    obtain ⟨p, l, ht⟩ : ∃ p l, s.timers = p :: l := by
      cases hh : s.timers with
      | nil => rw [hh] at hlen; simp at hlen
      | cons a b => exact ⟨a, b, rfl⟩
    have hm0mem : selMin p l ∈ s.timers := by rw [ht]; exact selMin_mem l p
    have hphead : p ∈ s.timers := by rw [ht]; exact List.mem_cons_self _ _
    have hpexp : p.2.expiry < MS_IN_A_YEAR := (hpure p hphead).2.2
    have hnext : getNextTimerHandle s = some (selMin p l).1 :=
      getNextTimerHandle_cons s p l ht hpexp
    have hget : mapGet s.timers (selMin p l).1 = some (selMin p l).2 :=
      mapGet_of_mem_keysAsc hasc hm0mem
    have htype : (selMin p l).2.type = TimerType.timeout := (hpure _ hm0mem).1
    obtain ⟨k, hk⟩ : ∃ k, (selMin p l).2.callback = Cb.note k := by
      have hn := (hpure _ hm0mem).2.1
      cases hc : (selMin p l).2.callback <;> rw [hc] at hn <;> simp [isNote] at hn
      case note k => exact ⟨k, rfl⟩
    have hrun : runTimerHandle cfg (selMin p l).1 s =
        ({ s with timers := mapDelete s.timers (selMin p l).1, log := s.log ++ [k] }, none) := by
      simp [runTimerHandle, hget, htype, hk, runCb]
    cases fuel with
    | zero => omega
    | succ fm =>
      have hasc' : (s.timers).Pairwise (fun a b => a.1 < b.1) := hasc
      have hlen1 : (mapDelete s.timers (selMin p l).1).length = n := by
        have := length_mapDelete_of_get_some hasc hget
        omega
      have hih := ih fm
        ({ s with timers := mapDelete s.timers (selMin p l).1, log := s.log ++ [k] })
        hlen1 (by omega) (hasc'.sublist (mapDelete_sublist _ _))
        (fun q hq => hpure q (mem_of_mem_mapDelete hq).1) hticks himm
      have hnotev : noteVal (selMin p l) = k := by
        simp [noteVal, hk]
      have hstep := runTimersAux_step cfg fm s
        ({ s with timers := mapDelete s.timers (selMin p l).1, log := s.log ++ [k] })
        (selMin p l).1 hnext hrun himm hticks
      rw [hstep, hih, ht]
      simp only [fireOrder, List.map_cons, hnotev]
      simp [List.append_assoc]

/-- C1: with timeouts of delays `[100, 200, 50]` scheduled at virtual-now 0,
`runAllTimers()` runs the callbacks in the order `[50, 100, 200]` and leaves
virtual-now at 0.  In general, for a scheduler holding only plain timeout
timers below the year sentinel (with ids ascending along insertion order, as
minting from the uuid counter guarantees) and room in the loop bound, a full
drain logs exactly the timers in `fireOrder` sequence, which is pairwise
sorted by the strict lexicographic order (ascending expiry, ties broken by
ascending id, which equals insertion order) and is a permutation of the
stored timers: every timer fires exactly once, in strictly ascending expiry
order with ties broken by insertion order. -/
theorem c1_timer_ordering :
    ((runAllTimers cfg0 c1state).1.log = [50, 100, 200] ∧
     (runAllTimers cfg0 c1state).1.now = 0 ∧
     (runAllTimers cfg0 c1state).2 = none) ∧
    (∀ (Ref : Type) (cfg : TimerConfig Ref) (s : FakeTimers),
      keysAsc s.timers → pureNotes s.timers → s.ticks = [] → s.immediates = [] →
      s.timers.length < s.maxLoops →
      runAllTimers cfg s =
        ({ s with timers := [], log := s.log ++ (fireOrder s.timers.length s.timers).map noteVal }, none) ∧
      (fireOrder s.timers.length s.timers).Pairwise timerLexLT ∧
      (fireOrder s.timers.length s.timers).Perm s.timers) := by
  constructor
  · refine ⟨?_, ?_, ?_⟩ <;> decide
  · intro Ref cfg s hasc hpure hticks himm hlen
    have hml : 0 < s.maxLoops := by omega
    have h1 : runAllTicks cfg s = (s, none) := runTicksAux_empty cfg s.maxLoops s hticks hml
    have h2 : runAllImmediates cfg s = (s, none) :=
      runImmediatesAux_empty cfg s.maxLoops s himm hml
    refine ⟨?_, fireOrder_pairwise _ _ hasc, fireOrder_perm _ _ hasc rfl⟩
    simp only [runAllTimers, h1, h2]
    exact runTimersAux_pure cfg s.timers.length s.maxLoops s rfl hlen hasc hpure hticks himm

/-- C1 (witness). -/
theorem c1_timer_ordering_witness :
    keysAsc c1state.timers ∧ pureNotes c1state.timers ∧
    (runAllTimers cfg0 c1state =
      ({ c1state with timers := [], log := c1state.log ++ (fireOrder c1state.timers.length c1state.timers).map noteVal }, none) ∧
     (fireOrder c1state.timers.length c1state.timers).Pairwise timerLexLT ∧
     (fireOrder c1state.timers.length c1state.timers).Perm c1state.timers) := by
  refine ⟨by decide, by decide, ?_⟩
  exact c1_timer_ordering.2 Int cfg0 c1state (by decide) (by decide) (by decide)
    (by decide) (by decide)

theorem foldl_getNext_ne (u : Int) : ∀ (l : List (Int × Timer)) (acc : Option Int × Int),
    (∀ p ∈ l, p.1 = u → MS_IN_A_YEAR ≤ p.2.expiry) →
    acc.1 ≠ some u → acc.2 ≤ MS_IN_A_YEAR →
    (l.foldl (fun acc p => if p.2.expiry < acc.2 then (some p.1, p.2.expiry) else acc)
      acc).1 ≠ some u := by
  intro l
  induction l with
  | nil =>
    intro acc _ h1 _
    simpa using h1
  | cons q l' ih =>
    intro acc hbig h1 h2
    simp only [List.foldl_cons]
    by_cases hq : q.2.expiry < acc.2
    · rw [if_pos hq]
      refine ih _ (fun p hp => hbig p (List.mem_cons_of_mem _ hp)) ?_ ?_
      · intro hcontra
        have hqu : q.1 = u := by simpa using hcontra
        have := hbig q (List.mem_cons_self _ _) hqu
        omega
      · simp only
        omega
    · rw [if_neg hq]
      exact ih acc (fun p hp => hbig p (List.mem_cons_of_mem _ hp)) h1 h2

theorem getNext_ne_of_year (s : FakeTimers) (u : Int)
    (hbig : ∀ p ∈ s.timers, p.1 = u → MS_IN_A_YEAR ≤ p.2.expiry) :
    getNextTimerHandle s ≠ some u := by
  unfold getNextTimerHandle
  exact foldl_getNext_ne u s.timers ((none : Option Int), MS_IN_A_YEAR) hbig
    (by simp) (by simp)

theorem fakeNextTick_shield (u : Int) (t : Timer) (cb : Cb) (s : FakeTimers)
    (h : entryShielded u t s) : entryShielded u t (fakeNextTick cb s) := by
  obtain ⟨h1, h2, h3⟩ := h
  unfold fakeNextTick
  split
  · exact ⟨h1, h2, h3⟩
  · refine ⟨?_, h2, h3⟩
    show u < s.uuidCounter + 1
    omega

theorem fakeSetTimeout_shield (cfg : TimerConfig Ref) (u : Int) (t : Timer) (cb : Cb)
    (d : Option JSNum) (s : FakeTimers) (h : entryShielded u t s) :
    entryShielded u t (fakeSetTimeout cfg cb d s).1 := by
  obtain ⟨h1, h2, h3⟩ := h
  unfold fakeSetTimeout
  split
  · exact ⟨h1, h2, h3⟩
  · refine ⟨?_, ?_, ?_⟩
    · show u < s.uuidCounter + 1
      omega
    · show mapGet (mapSet s.timers s.uuidCounter
        ({ type := TimerType.timeout, callback := cb, expiry := s.now + toInt32 d,
           interval := none })) u = some t
      rw [mapGet_mapSet_ne _ _ _ _ (by omega : s.uuidCounter ≠ u)]
      exact h2
    · intro p hp hpu
      rcases mem_mapSet hp with hm | he
      · exact h3 p hm hpu
      · exfalso
        rw [he] at hpu
        simp only at hpu
        omega

theorem runCb_shield (cfg : TimerConfig Ref) (u : Int) (t : Timer) (c : Cb) :
    ∀ (s : FakeTimers), entryShielded u t s → entryShielded u t (runCb cfg c s).1 := by
  induction c with
  | note n => intro s h; exact h
  | noteNow => intro s h; exact h
  | throwE n => intro s h; exact h
  | tickRespawn =>
    intro s h
    exact fakeNextTick_shield u t Cb.tickRespawn _ h
  | schedTimeout d c ih =>
    intro s h
    exact fakeSetTimeout_shield cfg u t c d s h
  | seq a b iha ihb =>
    intro s h
    have ha := iha s h
    rcases hra : runCb cfg a s with ⟨s1, e⟩
    rw [hra] at ha
    cases e with
    | some er => simpa [runCb, hra] using ha
    | none =>
      have hb := ihb s1 ha
      simpa [runCb, hra] using hb

theorem runImmediate_shield (cfg : TimerConfig Ref) (u : Int) (t : Timer) (im : Tick)
    (s : FakeTimers) (h : entryShielded u t s) :
    entryShielded u t (runImmediate cfg im s).1 := by
  have hc := runCb_shield cfg u t im.callback s h
  rcases hr : runCb cfg im.callback s with ⟨s1, e⟩
  rw [hr] at hc
  simpa [runImmediate, hr, fakeClearImmediate] using hc

theorem runTicksAux_succ (cfg : TimerConfig Ref) (n : Nat) (s : FakeTimers) :
    runTicksAux cfg (n + 1) s =
      match s.ticks with
      | [] => (s, none)
      | tick :: rest =>
        if s.cancelledTicks.contains tick.uuid then
          runTicksAux cfg n { s with ticks := rest }
        else
          match runCb cfg tick.callback { s with ticks := rest, cancelledTicks := tick.uuid :: s.cancelledTicks } with
          | (s3, some e) => (s3, some e)
          | (s3, none) => runTicksAux cfg n s3 := rfl

theorem runTicksAux_shield (cfg : TimerConfig Ref) (u : Int) (t : Timer) :
    ∀ (fuel : Nat) (s : FakeTimers), entryShielded u t s →
      entryShielded u t (runTicksAux cfg fuel s).1 := by
  intro fuel
  induction fuel with
  | zero => intro s h; exact h
  | succ n ih =>
    intro s h
    rw [runTicksAux_succ]
    cases hts : s.ticks with
    | nil => exact h
    | cons tk rest =>
      simp only
      by_cases hc : s.cancelledTicks.contains tk.uuid
      · rw [if_pos hc]
        exact ih _ h
      · rw [if_neg hc]
        have hsh : entryShielded u t ({ s with ticks := rest, cancelledTicks := tk.uuid :: s.cancelledTicks } : FakeTimers) := h
        have hrc := runCb_shield cfg u t tk.callback _ hsh
        rcases hr : runCb cfg tk.callback ({ s with ticks := rest, cancelledTicks := tk.uuid :: s.cancelledTicks } : FakeTimers) with ⟨s3, e⟩
        rw [hr] at hrc
        cases e with
        | some er => exact hrc
        | none => exact ih s3 hrc

theorem runImmediatesAux_succ (cfg : TimerConfig Ref) (n : Nat) (s : FakeTimers) :
    runImmediatesAux cfg (n + 1) s =
      match s.immediates with
      | [] => (s, none)
      | immediate :: rest =>
        match runImmediate cfg immediate { s with immediates := rest } with
        | (s1, some e) => (s1, some e)
        | (s1, none) => runImmediatesAux cfg n s1 := rfl

theorem runImmediatesAux_shield (cfg : TimerConfig Ref) (u : Int) (t : Timer) :
    ∀ (fuel : Nat) (s : FakeTimers), entryShielded u t s →
      entryShielded u t (runImmediatesAux cfg fuel s).1 := by
  intro fuel
  induction fuel with
  | zero => intro s h; exact h
  | succ n ih =>
    intro s h
    rw [runImmediatesAux_succ]
    cases hts : s.immediates with
    | nil => exact h
    | cons im rest =>
      simp only
      have hsh : entryShielded u t ({ s with immediates := rest } : FakeTimers) := h
      have hri := runImmediate_shield cfg u t im _ hsh
      rcases hr : runImmediate cfg im ({ s with immediates := rest } : FakeTimers) with ⟨s1, e⟩
      rw [hr] at hri
      cases e with
      | some er => exact hri
      | none => exact ih s1 hri

theorem runTimerHandle_shield (cfg : TimerConfig Ref) (u : Int) (t : Timer) (hH : Int)
    (s : FakeTimers) (hne : hH ≠ u) (h : entryShielded u t s) :
    entryShielded u t (runTimerHandle cfg hH s).1 := by
  obtain ⟨h1, h2, h3⟩ := h
  unfold runTimerHandle
  cases hget : mapGet s.timers hH with
  | none => exact ⟨h1, h2, h3⟩
  | some timer =>
    obtain ⟨ty, cb, exp, itv⟩ := timer
    cases ty with
    | timeout =>
      refine runCb_shield cfg u t cb _ ⟨h1, ?_, ?_⟩
      · show mapGet (mapDelete s.timers hH) u = some t
        rw [mapGet_mapDelete_ne _ _ _ hne]
        exact h2
      · intro p hp hpu
        exact h3 p (mem_of_mem_mapDelete hp).1 hpu
    | interval =>
      refine runCb_shield cfg u t cb _ ⟨h1, ?_, ?_⟩
      · show mapGet (mapSet s.timers hH
          ({ type := TimerType.interval, callback := cb, expiry := s.now + itv.getD 0,
             interval := itv })) u = some t
        rw [mapGet_mapSet_ne _ _ _ _ hne]
        exact h2
      · intro p hp hpu
        rcases mem_mapSet hp with hm | he
        · exact h3 p hm hpu
        · exfalso
          rw [he] at hpu
          simp only at hpu
          exact hne hpu
    | other tag => exact ⟨h1, h2, h3⟩

theorem runTimersAux_shield (cfg : TimerConfig Ref) (u : Int) (t : Timer) :
    ∀ (fuel : Nat) (s : FakeTimers), entryShielded u t s →
      entryShielded u t (runTimersAux cfg fuel s).1 := by
  intro fuel
  induction fuel with
  | zero => intro s h; exact h
  | succ n ih =>
    intro s h
    cases hnext : getNextTimerHandle s with
    | none => simpa [runTimersAux, hnext] using h
    | some hH =>
      have hne : hH ≠ u := by
        intro he
        exact getNext_ne_of_year s u h.2.2 (he ▸ hnext)
      simp only [runTimersAux, hnext]
      have hs1 := runTimerHandle_shield cfg u t hH s hne h
      rcases hrun : runTimerHandle cfg hH s with ⟨s1, e1⟩
      rw [hrun] at hs1
      cases e1 with
      | some er => simpa using hs1
      | none =>
        simp only
        have hs2 : entryShielded u t
            (if s1.immediates.length ≠ 0 then runAllImmediates cfg s1 else (s1, none)).1 := by
          split
          · exact runImmediatesAux_shield cfg u t _ s1 hs1
          · exact hs1
        rcases h2 : (if s1.immediates.length ≠ 0 then runAllImmediates cfg s1 else (s1, none)) with ⟨s2, e2⟩
        rw [h2] at hs2
        cases e2 with
        | some er => exact hs2
        | none =>
          simp only
          have hs3 : entryShielded u t
              (if s2.ticks.length ≠ 0 then runAllTicks cfg s2 else (s2, none)).1 := by
            split
            · exact runTicksAux_shield cfg u t _ s2 hs2
            · exact hs2
          rcases h3 : (if s2.ticks.length ≠ 0 then runAllTicks cfg s2 else (s2, none)) with ⟨s3, e3⟩
          rw [h3] at hs3
          cases e3 with
          | some er => exact hs3
          | none => exact ih s3 hs3

theorem runAllTimers_shield (cfg : TimerConfig Ref) (u : Int) (t : Timer) (s : FakeTimers)
    (h : entryShielded u t s) : entryShielded u t (runAllTimers cfg s).1 := by
  unfold runAllTimers
  have h1 : entryShielded u t (runAllTicks cfg s).1 :=
    runTicksAux_shield cfg u t s.maxLoops s h
  rcases hr1 : runAllTicks cfg s with ⟨s1, e1⟩
  rw [hr1] at h1
  cases e1 with
  | some er => exact h1
  | none =>
    simp only
    have h2 : entryShielded u t (runAllImmediates cfg s1).1 :=
      runImmediatesAux_shield cfg u t s1.maxLoops s1 h1
    rcases hr2 : runAllImmediates cfg s1 with ⟨s2, e2⟩
    rw [hr2] at h2
    cases e2 with
    | some er => exact h2
    | none => exact runTimersAux_shield cfg u t s.maxLoops s2 h2

theorem advanceAux_shield (cfg : TimerConfig Ref) (u : Int) (t : Timer) :
    ∀ (fuel : Nat) (ms : Int) (s : FakeTimers), entryShielded u t s →
      entryShielded u t (advanceAux cfg fuel ms s).1 := by
  intro fuel
  induction fuel with
  | zero => intro ms s h; exact h
  | succ n ih =>
    intro ms s h
    cases hnext : getNextTimerHandle s with
    | none => simpa [advanceAux, hnext] using h
    | some hH =>
      have hne : hH ≠ u := by
        intro he
        exact getNext_ne_of_year s u h.2.2 (he ▸ hnext)
      simp only [advanceAux, hnext]
      cases hget : mapGet s.timers hH with
      | none => simpa using h
      | some tv =>
        simp only
        by_cases hlt : s.now + ms < tv.expiry
        · rw [if_pos hlt]
          exact h
        · rw [if_neg hlt]
          have hsh : entryShielded u t ({ s with now := tv.expiry } : FakeTimers) := h
          have hs1 := runTimerHandle_shield cfg u t hH _ hne hsh
          rcases hrun : runTimerHandle cfg hH ({ s with now := tv.expiry } : FakeTimers) with ⟨s1, e1⟩
          rw [hrun] at hs1
          cases e1 with
          | some er => exact hs1
          | none => exact ih _ s1 hs1

theorem advanceToNext_shield (cfg : TimerConfig Ref) (u : Int) (t : Timer) :
    ∀ (steps : Nat) (s : FakeTimers), entryShielded u t s →
      entryShielded u t (advanceTimersToNextTimer cfg steps s).1 := by
  intro steps
  induction steps with
  | zero => intro s h; exact h
  | succ n ih =>
    intro s h
    cases hnem : nextExpiryOf s.timers with
    | none => simpa [advanceTimersToNextTimer, hnem] using h
    | some nextExpiry =>
      simp only [advanceTimersToNextTimer, hnem]
      have ha : entryShielded u t (advanceTimersByTime cfg (nextExpiry - s.now) s).1 :=
        advanceAux_shield cfg u t s.maxLoops (nextExpiry - s.now) s h
      rcases hr : advanceTimersByTime cfg (nextExpiry - s.now) s with ⟨s1, e1⟩
      rw [hr] at ha
      cases e1 with
      | some er => exact ha
      | none => exact ih s1 ha

theorem getTimerCount_pos_of_get (s : FakeTimers) (u : Int) (t : Timer)
    (h : mapGet s.timers u = some t) : 1 ≤ getTimerCount s := by
  unfold getTimerCount
  cases hts : s.timers with
  | nil =>
    rw [hts] at h
    simp [mapGet] at h
  | cons a b =>
    simp only [hts, List.length_cons]
    omega

/-- C10: a timer entry whose expiry is at or beyond `MS_IN_A_YEAR`
(31536000000 ms) is never selected by the next-timer search (the fold starts
from the year sentinel and replaces only on strictly smaller expiry), and
consequently `runAllTimers`, `advanceTimersByTime` and
`advanceTimersToNextTimer` never fire it: a shielded entry (stored, all
entries under its key at or beyond the sentinel, key below the uuid counter)
survives each of the three drains untouched, whatever the other timers and
callbacks do — while it still contributes to `getTimerCount()`. -/
theorem c10_year_cap :
    (∀ (s : FakeTimers) (u : Int),
        (∀ p ∈ s.timers, p.1 = u → MS_IN_A_YEAR ≤ p.2.expiry) →
        getNextTimerHandle s ≠ some u) ∧
    (∀ (Ref : Type) (cfg : TimerConfig Ref) (u : Int) (t : Timer) (s : FakeTimers),
        entryShielded u t s →
        mapGet (runAllTimers cfg s).1.timers u = some t ∧
        (∀ ms : Int, mapGet (advanceTimersByTime cfg ms s).1.timers u = some t) ∧
        (∀ steps : Nat, mapGet (advanceTimersToNextTimer cfg steps s).1.timers u = some t)) ∧
    (∀ (s : FakeTimers) (u : Int) (t : Timer),
        mapGet s.timers u = some t → 1 ≤ getTimerCount s) := by
  refine ⟨fun s u h => getNext_ne_of_year s u h, ?_, fun s u t h => getTimerCount_pos_of_get s u t h⟩
  intro Ref cfg u t s h
  exact ⟨(runAllTimers_shield cfg u t s h).2.1,
    fun ms => (advanceAux_shield cfg u t s.maxLoops ms s h).2.1,
    fun steps => (advanceToNext_shield cfg u t steps s h).2.1⟩

/-- C10 (witness). -/
theorem c10_year_cap_witness :
    entryShielded 50 bigTimer c10state ∧
    mapGet (runAllTimers cfg0 c10state).1.timers 50 = some bigTimer ∧
    mapGet (advanceTimersByTime cfg0 (2 * MS_IN_A_YEAR) c10state).1.timers 50 = some bigTimer ∧
    mapGet (advanceTimersToNextTimer cfg0 3 c10state).1.timers 50 = some bigTimer ∧
    1 ≤ getTimerCount c10state := by
  have hsh : entryShielded 50 bigTimer c10state := by decide
  have h := c10_year_cap.2.1 Int cfg0 50 bigTimer c10state hsh
  exact ⟨hsh, h.1, h.2.1 _, h.2.2 3, c10_year_cap.2.2 c10state 50 bigTimer hsh.2.1⟩

end Jest
